import Mathlib

/-!
Verification of the thread-safe container library: a mutex-guarded LIFO
stack (`threadsafe_stack`, src/Lock_based/threadsafe_stack.cpp) and a
fine-grained two-lock FIFO queue with a dummy tail node
(`threadsafe_queue`, the unnamed queue source file).

Modelling choices (shallow embedding):
- `threadsafe_stack<T>` holds `std::stack<T> data` and a mutex member `m`.
  We model the element sequence as a `List T` with the top at the front,
  and the identity of the mutex member object as a `Nat` (two distinct
  live mutex objects have distinct identities).  A thrown `empty_stack`
  exception is an `Except.error`; since the C++ object is unchanged when
  `pop` throws, each operation returns the result together with the
  stack state after the call.
- `threadsafe_queue<T>` is a singly linked chain of nodes, each with a
  `shared_ptr<T> data` payload slot (modelled `Option T`).  `head` owns
  the first node and `tail` points at the last node, so we model the
  state as the list of payload slots from the head node to the tail
  node; the pointer comparison `head.get() == get_tail()` holds exactly
  when the chain consists of a single node, i.e. when the list has
  length one.  (`head` is never null in any reachable state: the
  constructor allocates the dummy node and every pop replaces `head` by
  the old head's successor, which `push` has allocated.)
- `wait_and_pop` blocks on a condition variable until the queue is
  non-empty.  In the sequential model (no concurrent producer) a wait on
  an empty queue never returns, which we model by `Option`: `none` means
  the call blocks indefinitely.
- Lock usage is modelled separately by per-operation event traces over
  `LockEvent`, transcribed from the lock acquisitions, releases,
  condition waits and notifications in the source.
-/

/-- The `empty_stack` exception type thrown by `threadsafe_stack::pop`. -/
inductive empty_stack : Type where
  | mk : empty_stack
  deriving DecidableEq, Repr

/-- `empty_stack::what()` returns the fixed message. -/
def empty_stack.what : empty_stack → String :=
  fun _ => "empty stack!"

/-- `threadsafe_stack<T>`: the guarded `std::stack<T>` (top of the stack is
the head of `data`) together with the identity `m` of its own mutex
member object. -/
structure threadsafe_stack (T : Type) where
  data : List T
  m : Nat
  deriving DecidableEq, Repr

/-- The default constructor: empty sequence, fresh mutex object `m`. -/
def threadsafe_stack.new (T : Type) (m : Nat) : threadsafe_stack T :=
  ⟨[], m⟩

/-- The copy constructor `threadsafe_stack(const threadsafe_stack& other)`:
it locks `other.m`, copies `other.data`, and default-constructs its own
mutex member (identity `freshM`, a new object distinct from every live
mutex).  It only reads the source, so the result pairs the new stack
with the source's state after the call. -/
def threadsafe_stack.copy {T : Type} (other : threadsafe_stack T) (freshM : Nat) :
    threadsafe_stack T × threadsafe_stack T :=
  (⟨other.data, freshM⟩, other)

/-- `threadsafe_stack::push`: under the lock, pushes onto the top. -/
def threadsafe_stack.push {T : Type} (s : threadsafe_stack T) (new_value : T) :
    threadsafe_stack T :=
  ⟨new_value :: s.data, s.m⟩

/-- `std::shared_ptr<T> threadsafe_stack::pop()`: under the lock, throws
`empty_stack` if the sequence is empty, otherwise returns the top and
removes it.  The second component is the stack state after the call. -/
def threadsafe_stack.pop {T : Type} (s : threadsafe_stack T) :
    Except empty_stack T × threadsafe_stack T :=
  match s.data with
  | [] => (Except.error empty_stack.mk, s)
  | x :: xs => (Except.ok x, ⟨xs, s.m⟩)

/-- `void threadsafe_stack::pop(T& value)`: the out-parameter overload.
Returns the outcome, the out parameter's value after the call, and the
stack state after the call. -/
def threadsafe_stack.popTo {T : Type} (s : threadsafe_stack T) (value : T) :
    Except empty_stack Unit × T × threadsafe_stack T :=
  match s.data with
  | [] => (Except.error empty_stack.mk, value, s)
  | x :: xs => (Except.ok (), x, ⟨xs, s.m⟩)

/-- `bool threadsafe_stack::empty()`: under the lock, reports whether the
sequence is empty.  It has no throwing path. -/
def threadsafe_stack.empty {T : Type} (s : threadsafe_stack T) : Bool :=
  s.data.isEmpty

/-- A single-threaded sequence of pushes, in list order. -/
def threadsafe_stack.pushAll {T : Type} (s : threadsafe_stack T) (as : List T) :
    threadsafe_stack T :=
  as.foldl (fun t a => t.push a) s

/-- `n` successive calls of the value-returning `pop`, collecting the
outcomes in call order together with the final stack state. -/
def threadsafe_stack.popSeq {T : Type} (s : threadsafe_stack T) :
    Nat → List (Except empty_stack T) × threadsafe_stack T
  | 0 => ([], s)
  | n + 1 =>
    let r := s.pop
    let rest := r.2.popSeq n
    (r.1 :: rest.1, rest.2)

/-- `threadsafe_queue<T>`: the chain of payload slots from the node owned
by `head` (first element) to the node pointed at by `tail` (last
element).  Each slot is the node's `shared_ptr<T> data` member: `none`
when null. -/
structure threadsafe_queue (T : Type) where
  chain : List (Option T)
  deriving DecidableEq, Repr

/-- The constructor `head(new node), tail(head.get())`: one dummy node
with a null payload, `head` and `tail` both identifying it. -/
def threadsafe_queue.new (T : Type) : threadsafe_queue T :=
  ⟨[none]⟩

/-- The pointer comparison `head.get() == get_tail()`: the first and last
node of the chain are the same object exactly when the chain is a single
node. -/
def threadsafe_queue.headEqTail {T : Type} (q : threadsafe_queue T) : Bool :=
  q.chain.length == 1

/-- Writing `new_data` into the current tail node's payload slot
(`tail->data = new_data`): replaces the last slot of the chain. -/
def setLastData {T : Type} : List (Option T) → Option T → List (Option T)
  | [], _ => []
  | [_], d => [d]
  | x :: y :: xs, d => x :: setLastData (y :: xs) d

/-- `threadsafe_queue::push`: under the tail lock, stores the value in the
current tail node's slot, links a freshly allocated empty node as the old
tail's successor and advances `tail` to it. -/
def threadsafe_queue.push {T : Type} (q : threadsafe_queue T) (new_value : T) :
    threadsafe_queue T :=
  ⟨setLastData q.chain (some new_value) ++ [none]⟩

/-- `threadsafe_queue::pop_head`: detaches the head node and advances
`head` to its successor, returning the detached node's payload slot and
the new state.  (The `[]` branch is the null-`head` dereference, which is
unreachable: the chain always holds at least the dummy node.) -/
def threadsafe_queue.pop_head {T : Type} (q : threadsafe_queue T) :
    Option T × threadsafe_queue T :=
  match q.chain with
  | [] => (none, q)
  | x :: xs => (x, ⟨xs⟩)

/-- `bool threadsafe_queue::empty()`: under the head lock, compares
`head.get()` with `get_tail()`. -/
def threadsafe_queue.empty {T : Type} (q : threadsafe_queue T) : Bool :=
  q.headEqTail

/-- The dereference `*head->data` used by the out-parameter pops.  The
fallback is the out parameter's previous value; it is never used in a
reachable non-empty state, where the head node's payload is non-null. -/
def threadsafe_queue.headData {T : Type} (q : threadsafe_queue T) (fallback : T) : T :=
  match q.chain with
  | some x :: _ => x
  | _ => fallback

/-- `threadsafe_queue::try_pop_head()`: under the head lock, returns null
if `head.get() == get_tail()`, otherwise removes the head node.  The
first component is the returned `unique_ptr<node>` (its payload slot when
non-null). -/
def threadsafe_queue.try_pop_head {T : Type} (q : threadsafe_queue T) :
    Option (Option T) × threadsafe_queue T :=
  if q.headEqTail then (none, q)
  else
    let p := q.pop_head
    (some p.1, p.2)

/-- `threadsafe_queue::try_pop_head(T& value)`: as `try_pop_head`, but on
the non-empty path first assigns `value = std::move(*head->data)`. -/
def threadsafe_queue.try_pop_headTo {T : Type} (q : threadsafe_queue T) (value : T) :
    Option (Option T) × T × threadsafe_queue T :=
  if q.headEqTail then (none, value, q)
  else
    let v := q.headData value
    let p := q.pop_head
    (some p.1, v, p.2)

/-- `std::shared_ptr<T> threadsafe_queue::try_pop()`: returns
`old_head ? old_head->data : std::shared_ptr<T>()`. -/
def threadsafe_queue.try_pop {T : Type} (q : threadsafe_queue T) :
    Option T × threadsafe_queue T :=
  let old_head := q.try_pop_head
  (match old_head.1 with
    | some d => d
    | none => none,
   old_head.2)

/-- `bool threadsafe_queue::try_pop(T& value)`: returns whether the popped
node pointer is non-null, together with the out parameter's value and the
queue state after the call. -/
def threadsafe_queue.try_popTo {T : Type} (q : threadsafe_queue T) (value : T) :
    Bool × T × threadsafe_queue T :=
  let old_head := q.try_pop_headTo value
  (old_head.1.isSome, old_head.2)

/-- `threadsafe_queue::wait_pop_head()`: waits on the condition variable
until `head.get() != get_tail()`, then removes the head node while still
holding the head lock.  In the sequential model a wait on an empty queue
never returns, modelled by `none`. -/
def threadsafe_queue.wait_pop_head {T : Type} (q : threadsafe_queue T) :
    Option (Option T × threadsafe_queue T) :=
  if q.headEqTail then none
  else some q.pop_head

/-- `threadsafe_queue::wait_pop_head(T& value)`: as `wait_pop_head`, but
assigns `value = std::move(*head->data)` before removing the head node. -/
def threadsafe_queue.wait_pop_headTo {T : Type} (q : threadsafe_queue T) (value : T) :
    Option (Option T × T × threadsafe_queue T) :=
  if q.headEqTail then none
  else
    let v := q.headData value
    let p := q.pop_head
    some (p.1, v, p.2)

/-- `std::shared_ptr<T> threadsafe_queue::wait_and_pop()`: returns the
removed node's payload pointer. -/
def threadsafe_queue.wait_and_pop {T : Type} (q : threadsafe_queue T) :
    Option (Option T × threadsafe_queue T) :=
  match q.wait_pop_head with
  | none => none
  | some (d, q₁) => some (d, q₁)

/-- `void threadsafe_queue::wait_and_pop(T& value)`: the out-parameter
blocking overload; the removed node itself is discarded. -/
def threadsafe_queue.wait_and_popTo {T : Type} (q : threadsafe_queue T) (value : T) :
    Option (T × threadsafe_queue T) :=
  match q.wait_pop_headTo value with
  | none => none
  | some (_, v, q₁) => some (v, q₁)

/-- The logical contents of the queue: the non-null payloads of the nodes
strictly before the tail node, in chain order. -/
def threadsafe_queue.contents {T : Type} (q : threadsafe_queue T) : List T :=
  q.chain.dropLast.filterMap id

/-- A single-threaded sequence of pushes, in list order. -/
def threadsafe_queue.pushAll {T : Type} (q : threadsafe_queue T) (as : List T) :
    threadsafe_queue T :=
  as.foldl (fun t a => t.push a) q

/-- The queue states reachable from the constructor by any single-threaded
sequence of `push`, `try_pop` (either overload) and `wait_and_pop` (either
overload, when it returns). -/
inductive QReachable {T : Type} : threadsafe_queue T → Prop where
  | init : QReachable (threadsafe_queue.new T)
  | push {q : threadsafe_queue T} (v : T) :
      QReachable q → QReachable (q.push v)
  | try_pop {q : threadsafe_queue T} :
      QReachable q → QReachable q.try_pop.2
  | try_popTo {q : threadsafe_queue T} (v : T) :
      QReachable q → QReachable (q.try_popTo v).2.2
  | wait_and_pop {q q₁ : threadsafe_queue T} {d : Option T} :
      QReachable q → q.wait_and_pop = some (d, q₁) → QReachable q₁
  | wait_and_popTo {q q₁ : threadsafe_queue T} {x : T} (v : T) :
      QReachable q → q.wait_and_popTo v = some (x, q₁) → QReachable q₁

/-- The dummy-node invariant: the chain is never physically empty, the
tail node's payload slot is null, and every node strictly before the tail
carries a real payload. -/
def QInv {T : Type} (q : threadsafe_queue T) : Prop :=
  q.chain ≠ [] ∧ q.chain.getLast? = some none ∧ ∀ x ∈ q.chain.dropLast, x ≠ none

/-- Synchronisation events performed by the queue operations, in program
order.  `condWaitSleep` marks a sleep inside `data_cond.wait`; the wait
releases the head mutex before sleeping and reacquires it on wakeup,
which the traces record with explicit `releaseHead` / `acquireHead`
events around the sleep. -/
inductive LockEvent : Type where
  | acquireHead : LockEvent
  | releaseHead : LockEvent
  | acquireTail : LockEvent
  | releaseTail : LockEvent
  | notifyOne : LockEvent
  | condWaitSleep : LockEvent
  deriving DecidableEq, Repr

/-- `get_tail()`: takes and releases the tail lock. -/
def get_tailEvents : List LockEvent :=
  [LockEvent.acquireTail, LockEvent.releaseTail]

/-- `push`: takes only the tail lock, releases it at the end of the inner
scope, and only then calls `data_cond.notify_one()`. -/
def pushEvents : List LockEvent :=
  [LockEvent.acquireTail, LockEvent.releaseTail, LockEvent.notifyOne]

/-- `empty()`: takes the head lock, evaluates `get_tail()` under it, then
releases the head lock. -/
def emptyEvents : List LockEvent :=
  [LockEvent.acquireHead] ++ get_tailEvents ++ [LockEvent.releaseHead]

/-- `try_pop_head` (either overload): takes the head lock, evaluates
`get_tail()` under it, and releases the head lock when the guard leaves
scope; `pop_head` itself touches no lock. -/
def try_pop_headEvents : List LockEvent :=
  [LockEvent.acquireHead] ++ get_tailEvents ++ [LockEvent.releaseHead]

/-- One failed round of `data_cond.wait`: release the head lock, sleep,
reacquire the head lock on wakeup, and re-evaluate the predicate (which
calls `get_tail()`). -/
def waitIterEvents : List LockEvent :=
  [LockEvent.releaseHead, LockEvent.condWaitSleep, LockEvent.acquireHead] ++ get_tailEvents

/-- `wait_for_data` in an execution whose predicate check fails `k` times
before succeeding: take the head lock, check the predicate, and sleep and
re-check `k` times; it returns still holding the head lock. -/
def wait_for_dataEvents : Nat → List LockEvent
  | 0 => [LockEvent.acquireHead] ++ get_tailEvents
  | k + 1 => wait_for_dataEvents k ++ waitIterEvents

/-- `wait_pop_head` (either overload) waking up after `k` failed predicate
checks: `wait_for_data`, then `pop_head` under the head lock, then the
head lock is released when the returned `unique_lock` leaves scope. -/
def wait_pop_headEvents (k : Nat) : List LockEvent :=
  wait_for_dataEvents k ++ [LockEvent.releaseHead]

/-- One step of the lock tracker.  The state records whether this thread
holds the head mutex and whether it holds the tail mutex; the step fails
(returns `none`) exactly when the thread acquires the head mutex while
holding the tail mutex — the reverse of the fixed acquisition order. -/
def stepLock : Bool × Bool → LockEvent → Option (Bool × Bool)
  | (_, ht), LockEvent.acquireHead => if ht then none else some (true, ht)
  | (_, ht), LockEvent.releaseHead => some (false, ht)
  | (hh, _), LockEvent.acquireTail => some (hh, true)
  | (hh, _), LockEvent.releaseTail => some (hh, false)
  | s, _ => some s

/-- Runs the lock tracker over a trace; `none` means the trace acquired
the two mutexes in the reverse order at some point. -/
def runLock : Bool × Bool → List LockEvent → Option (Bool × Bool)
  | s, [] => some s
  | s, e :: es =>
    match stepLock s e with
    | none => none
    | some s₁ => runLock s₁ es

theorem setLastData_eq {T : Type} (l : List (Option T)) (d : Option T) (h : l ≠ []) :
    setLastData l d = l.dropLast ++ [d] := by
  induction l with
  | nil => cases h rfl
  | cons x xs ih =>
    cases xs with
    | nil => rfl
    | cons y ys =>
      show x :: setLastData (y :: ys) d = (x :: y :: ys).dropLast ++ [d]
      rw [ih (by simp)]
      rfl

theorem push_chain {T : Type} (q : threadsafe_queue T) (v : T) (h : q.chain ≠ []) :
    (q.push v).chain = q.chain.dropLast ++ [some v, none] := by
  show setLastData q.chain (some v) ++ [none] = _
  rw [setLastData_eq _ _ h, List.append_assoc]
  rfl

theorem qinv_new {T : Type} : QInv (threadsafe_queue.new T) :=
  ⟨by simp [threadsafe_queue.new], rfl, by simp [threadsafe_queue.new]⟩

theorem qinv_push {T : Type} (q : threadsafe_queue T) (v : T) (h : QInv q) :
    QInv (q.push v) := by
  obtain ⟨h1, h2, h3⟩ := h
  have hc : (q.push v).chain = (q.chain.dropLast ++ [some v]) ++ [none] := by
    rw [push_chain q v h1, List.append_assoc]
    rfl
  refine ⟨by rw [hc]; simp, by rw [hc]; exact List.getLast?_concat _, ?_⟩
  rw [hc, List.dropLast_concat]
  intro x hx
  rcases List.mem_append.mp hx with hmem | hmem
  · exact h3 x hmem
  · simp only [List.mem_singleton] at hmem
    subst hmem
    simp

theorem qinv_pop_head {T : Type} (q : threadsafe_queue T) (h : QInv q)
    (hne : q.headEqTail = false) : QInv q.pop_head.2 := by
  obtain ⟨h1, h2, h3⟩ := h
  match hc : q.chain with
  | [] => exact absurd hc h1
  | [x] =>
    rw [threadsafe_queue.headEqTail, hc] at hne
    simp at hne
  | x :: y :: ys =>
    have hpop : q.pop_head.2 = ⟨y :: ys⟩ := by
      rw [threadsafe_queue.pop_head, hc]
    rw [hpop]
    refine ⟨by simp, ?_, ?_⟩
    · rw [hc, List.getLast?_cons_cons] at h2
      exact h2
    · intro a ha
      refine h3 a ?_
      rw [hc]
      exact List.mem_cons_of_mem x ha

theorem try_pop_snd {T : Type} (q : threadsafe_queue T) :
    q.try_pop.2 = if q.headEqTail then q else q.pop_head.2 := by
  cases hc : q.headEqTail <;>
    simp [threadsafe_queue.try_pop, threadsafe_queue.try_pop_head, hc]

theorem try_popTo_snd {T : Type} (q : threadsafe_queue T) (v : T) :
    (q.try_popTo v).2.2 = if q.headEqTail then q else q.pop_head.2 := by
  cases hc : q.headEqTail <;>
    simp [threadsafe_queue.try_popTo, threadsafe_queue.try_pop_headTo, hc]

theorem wait_and_pop_eq_some {T : Type} {q q₁ : threadsafe_queue T} {d : Option T}
    (h : q.wait_and_pop = some (d, q₁)) :
    q.headEqTail = false ∧ q₁ = q.pop_head.2 := by
  cases hc : q.headEqTail <;>
    simp [threadsafe_queue.wait_and_pop, threadsafe_queue.wait_pop_head, hc] at h
  exact ⟨rfl, (congrArg Prod.snd h).symm⟩

theorem wait_and_popTo_eq_some {T : Type} {q q₁ : threadsafe_queue T} {x : T} {v : T}
    (h : q.wait_and_popTo v = some (x, q₁)) :
    q.headEqTail = false ∧ q₁ = q.pop_head.2 := by
  cases hc : q.headEqTail <;>
    simp [threadsafe_queue.wait_and_popTo, threadsafe_queue.wait_pop_headTo, hc] at h
  exact ⟨rfl, h.2.symm⟩

theorem qinv_reachable {T : Type} {q : threadsafe_queue T} (h : QReachable q) :
    QInv q := by
  induction h with
  | init => exact qinv_new
  | push v _ ih => exact qinv_push _ v ih
  | @try_pop q' _ ih =>
    rw [try_pop_snd]
    cases hc : q'.headEqTail with
    | false => simpa [hc] using qinv_pop_head q' ih hc
    | true => simpa [hc] using ih
  | @try_popTo q' v _ ih =>
    rw [try_popTo_snd]
    cases hc : q'.headEqTail with
    | false => simpa [hc] using qinv_pop_head q' ih hc
    | true => simpa [hc] using ih
  | @wait_and_pop q' q₁ d _ hw ih =>
    obtain ⟨hc, hq⟩ := wait_and_pop_eq_some hw
    rw [hq]
    exact qinv_pop_head q' ih hc
  | @wait_and_popTo q' q₁ x v _ hw ih =>
    obtain ⟨hc, hq⟩ := wait_and_popTo_eq_some hw
    rw [hq]
    exact qinv_pop_head q' ih hc

theorem contents_nil_iff {T : Type} (q : threadsafe_queue T) (h : QInv q) :
    q.contents = [] ↔ q.empty = true := by
  obtain ⟨h1, h2, h3⟩ := h
  match hc : q.chain with
  | [] => exact absurd hc h1
  | [a] =>
    simp [threadsafe_queue.contents, threadsafe_queue.empty,
      threadsafe_queue.headEqTail, hc]
  | a :: b :: l =>
    have ha : a ≠ none := by
      refine h3 a ?_
      rw [hc]
      exact List.mem_cons_self a _
    obtain ⟨y, hy⟩ := Option.ne_none_iff_exists'.mp ha
    constructor
    · intro hcon
      rw [threadsafe_queue.contents, hc] at hcon
      rw [show (a :: b :: l).dropLast = a :: (b :: l).dropLast from rfl, hy] at hcon
      simp at hcon
    · intro he
      rw [threadsafe_queue.empty, threadsafe_queue.headEqTail, hc] at he
      simp at he

theorem pushAll_data {T : Type} (as : List T) (s : threadsafe_stack T) :
    (s.pushAll as).data = as.reverse ++ s.data ∧ (s.pushAll as).m = s.m := by
  induction as generalizing s with
  | nil => exact ⟨rfl, rfl⟩
  | cons a as ih =>
    have h := ih (s.push a)
    refine ⟨?_, h.2⟩
    rw [show s.pushAll (a :: as) = (s.push a).pushAll as from rfl, h.1]
    simp [threadsafe_stack.push]

theorem popSeq_all {T : Type} (l : List T) (m : Nat) :
    (threadsafe_stack.popSeq ⟨l, m⟩ l.length : List (Except empty_stack T) × threadsafe_stack T) =
      (l.map Except.ok, ⟨[], m⟩) := by
  induction l with
  | nil => rfl
  | cons x xs ih =>
    show threadsafe_stack.popSeq ⟨x :: xs, m⟩ (xs.length + 1) = _
    simp [threadsafe_stack.popSeq, threadsafe_stack.pop, ih]

theorem runLock_append (s : Bool × Bool) (l₁ l₂ : List LockEvent) :
    runLock s (l₁ ++ l₂) =
      match runLock s l₁ with
      | none => none
      | some s₁ => runLock s₁ l₂ := by
  induction l₁ generalizing s with
  | nil => rfl
  | cons e es ih =>
    show runLock s (e :: (es ++ l₂)) = _
    rw [runLock]
    cases h : stepLock s e with
    | none => rw [runLock, h]
    | some s₁ =>
      rw [runLock, h]
      exact ih s₁

theorem runLock_wait_for_data (k : Nat) :
    runLock (false, false) (wait_for_dataEvents k) = some (true, false) := by
  induction k with
  | zero => rfl
  | succ k ih =>
    show runLock (false, false) (wait_for_dataEvents k ++ waitIterEvents) = _
    rw [runLock_append, ih]
    rfl

theorem runLock_wait_pop_head (k : Nat) :
    runLock (false, false) (wait_pop_headEvents k) = some (false, false) := by
  rw [wait_pop_headEvents, runLock_append, runLock_wait_for_data]
  rfl

theorem wait_for_data_first_event (k : Nat) :
    (wait_for_dataEvents k).head? = some LockEvent.acquireHead := by
  induction k with
  | zero => rfl
  | succ k ih =>
    show (wait_for_dataEvents k ++ waitIterEvents).head? = _
    rw [List.head?_append_of_ne_nil]
    · exact ih
    · intro hnil
      rw [hnil] at ih
      exact Option.noConfusion ih

/-- C1: Queue FIFO law.  From a freshly constructed queue,
`push 1; push 2; push 3` followed by three `try_pop` calls returns
`1, 2, 3` in that order, and a fourth `try_pop` returns the empty
outcome: the null pointer from the value-returning overload (leaving the
queue unchanged) and `false` from the out-parameter overload. -/
theorem queue_fifo_law :
    ((((threadsafe_queue.new Nat).push 1).push 2).push 3).try_pop.1 = some 1 ∧
    ((((threadsafe_queue.new Nat).push 1).push 2).push 3).try_pop.2.try_pop.1 = some 2 ∧
    ((((threadsafe_queue.new Nat).push 1).push 2).push 3).try_pop.2.try_pop.2.try_pop.1
      = some 3 ∧
    ((((threadsafe_queue.new Nat).push 1).push 2).push 3).try_pop.2.try_pop.2.try_pop.2.try_pop
      = (none,
         ((((threadsafe_queue.new Nat).push 1).push 2).push 3).try_pop.2.try_pop.2.try_pop.2) ∧
    (((((threadsafe_queue.new Nat).push 1).push 2).push 3).try_pop.2.try_pop.2.try_pop.2.try_popTo
        99).1 = false := by
  decide

/-- C2: Stack LIFO law.  Pushing `a1, …, an` (in list order) onto an
empty stack and then popping `n` times succeeds each time and returns
`an, …, a1`, i.e. the reversed push sequence, and afterwards `empty`
reports `true`. -/
theorem stack_lifo_law {T : Type} (as : List T) (m : Nat) :
    ((threadsafe_stack.new T m).pushAll as).popSeq as.length =
      (as.reverse.map Except.ok, threadsafe_stack.new T m) ∧
    (((threadsafe_stack.new T m).pushAll as).popSeq as.length).2.empty = true := by
  have hs : (threadsafe_stack.new T m).pushAll as
      = (⟨as.reverse, m⟩ : threadsafe_stack T) := by
    have h1 := (pushAll_data as (threadsafe_stack.new T m)).1
    have h2 := (pushAll_data as (threadsafe_stack.new T m)).2
    cases hq : (threadsafe_stack.new T m).pushAll as with
    | mk d mm =>
      rw [hq] at h1 h2
      simp [threadsafe_stack.new] at h1 h2
      rw [h1, h2]
  rw [hs, show as.length = as.reverse.length from (List.length_reverse as).symm,
    popSeq_all]
  exact ⟨rfl, rfl⟩

/-- C3: Dummy-node invariant.  In every queue state reachable from the
constructor by pushes, non-blocking pops and returning blocking pops, the
node chain is physically non-empty, and the queue is logically empty
(its list of real payloads is empty) exactly when the head and tail
pointers identify the same node. -/
theorem queue_dummy_node_invariant {T : Type} (q : threadsafe_queue T)
    (h : QReachable q) :
    q.chain ≠ [] ∧ (q.contents = [] ↔ q.empty = true) :=
  ⟨(qinv_reachable h).1, contents_nil_iff q (qinv_reachable h)⟩

theorem queue_dummy_node_invariant_witness :
    (threadsafe_queue.new Nat).chain ≠ [] ∧
      ((threadsafe_queue.new Nat).contents = [] ↔
        (threadsafe_queue.new Nat).empty = true) :=
  queue_dummy_node_invariant (threadsafe_queue.new Nat) QReachable.init

/-- C4: Stack empty-pop failure.  On a stack holding zero elements, both
`pop` overloads raise `empty_stack` synchronously and leave the stack
state (and, for the out-parameter overload, the caller's storage)
exactly as before the call; `empty` — which has no throwing path —
reports `true` there. -/
theorem stack_empty_pop_raises {T : Type} (s : threadsafe_stack T) (v : T)
    (h : s.data = []) :
    s.pop = (Except.error empty_stack.mk, s) ∧
    s.popTo v = (Except.error empty_stack.mk, v, s) ∧
    s.empty = true := by
  simp [threadsafe_stack.pop, threadsafe_stack.popTo, threadsafe_stack.empty, h]

theorem stack_empty_pop_raises_witness :
    (threadsafe_stack.new Nat 0).data = [] ∧
      ((threadsafe_stack.new Nat 0).pop
          = (Except.error empty_stack.mk, threadsafe_stack.new Nat 0) ∧
        (threadsafe_stack.new Nat 0).popTo 5
          = (Except.error empty_stack.mk, 5, threadsafe_stack.new Nat 0) ∧
        (threadsafe_stack.new Nat 0).empty = true) :=
  ⟨rfl, stack_empty_pop_raises (threadsafe_stack.new Nat 0) 5 rfl⟩

/-- C5: Queue push algorithm.  `push v` stores `v` in the current tail
node's payload slot and appends one fresh empty node which becomes the
new tail, so after the push the tail node's slot is empty while (given
that every pre-tail node already carried payload) every node before the
tail carries real payload; and `push`'s event trace takes only the tail
lock and issues the consumer signal strictly after releasing it. -/
theorem queue_push_spec {T : Type} (q : threadsafe_queue T) (v : T)
    (h : q.chain ≠ []) :
    (q.push v).chain = q.chain.dropLast ++ [some v, none] ∧
    (q.push v).chain.getLast? = some none ∧
    ((∀ x ∈ q.chain.dropLast, x ≠ none) →
      ∀ x ∈ (q.push v).chain.dropLast, x ≠ none) ∧
    pushEvents = [LockEvent.acquireTail, LockEvent.releaseTail, LockEvent.notifyOne] := by
  have hc : (q.push v).chain = (q.chain.dropLast ++ [some v]) ++ [none] := by
    rw [push_chain q v h, List.append_assoc]
    rfl
  refine ⟨push_chain q v h, ?_, ?_, rfl⟩
  · rw [hc]
    exact List.getLast?_concat _
  · intro hall x hx
    rw [hc, List.dropLast_concat] at hx
    rcases List.mem_append.mp hx with hmem | hmem
    · exact hall x hmem
    · simp only [List.mem_singleton] at hmem
      subst hmem
      simp

theorem queue_push_spec_witness :
    (threadsafe_queue.new Nat).chain ≠ [] ∧
      (((threadsafe_queue.new Nat).push 7).chain
          = (threadsafe_queue.new Nat).chain.dropLast ++ [some 7, none] ∧
        ((threadsafe_queue.new Nat).push 7).chain.getLast? = some none ∧
        ((∀ x ∈ (threadsafe_queue.new Nat).chain.dropLast, x ≠ none) →
          ∀ x ∈ ((threadsafe_queue.new Nat).push 7).chain.dropLast, x ≠ none) ∧
        pushEvents = [LockEvent.acquireTail, LockEvent.releaseTail, LockEvent.notifyOne]) :=
  ⟨by decide, queue_push_spec (threadsafe_queue.new Nat) 7 (by decide)⟩

/-- C6: On a non-empty queue, the blocking pops perform exactly the head
removal the non-blocking pops perform: `wait_pop_head` returns the node
`pop_head` detaches, and each `wait_and_pop` overload returns the same
value and the same resulting queue state as the corresponding `try_pop`
overload. -/
theorem wait_and_pop_equiv_try_pop {T : Type} (q : threadsafe_queue T) (v : T)
    (h : q.empty = false) :
    q.wait_pop_head = some q.pop_head ∧
    q.try_pop_head = (some q.pop_head.1, q.pop_head.2) ∧
    q.wait_and_pop = some q.try_pop ∧
    q.wait_and_popTo v = some (q.try_popTo v).2 := by
  have hc : q.headEqTail = false := h
  simp [threadsafe_queue.wait_pop_head, threadsafe_queue.try_pop_head,
    threadsafe_queue.wait_and_pop, threadsafe_queue.try_pop,
    threadsafe_queue.wait_and_popTo, threadsafe_queue.try_popTo,
    threadsafe_queue.wait_pop_headTo, threadsafe_queue.try_pop_headTo, hc]

theorem wait_and_pop_equiv_try_pop_witness :
    ((threadsafe_queue.new Nat).push 5).empty = false ∧
      (((threadsafe_queue.new Nat).push 5).wait_pop_head
          = some ((threadsafe_queue.new Nat).push 5).pop_head ∧
        ((threadsafe_queue.new Nat).push 5).try_pop_head
          = (some ((threadsafe_queue.new Nat).push 5).pop_head.1,
             ((threadsafe_queue.new Nat).push 5).pop_head.2) ∧
        ((threadsafe_queue.new Nat).push 5).wait_and_pop
          = some ((threadsafe_queue.new Nat).push 5).try_pop ∧
        ((threadsafe_queue.new Nat).push 5).wait_and_popTo 0
          = some (((threadsafe_queue.new Nat).push 5).try_popTo 0).2) :=
  ⟨by decide, wait_and_pop_equiv_try_pop ((threadsafe_queue.new Nat).push 5) 0 (by decide)⟩

/-- C7: Non-blocking empty outcome.  On an empty queue (`head == tail`)
`try_pop` returns the null pointer with the queue unchanged and the
out-parameter overload returns `false`; the result is delivered through
the normal return channel (no exception type exists in these
signatures), and the operation's event trace contains no condition
variable sleep. -/
theorem try_pop_empty_nonblocking {T : Type} (q : threadsafe_queue T) (v : T)
    (h : q.empty = true) :
    q.try_pop = (none, q) ∧ (q.try_popTo v).1 = false ∧
    LockEvent.condWaitSleep ∉ try_pop_headEvents := by
  have hc : q.headEqTail = true := h
  refine ⟨?_, ?_, by decide⟩
  · simp [threadsafe_queue.try_pop, threadsafe_queue.try_pop_head, hc]
  · simp [threadsafe_queue.try_popTo, threadsafe_queue.try_pop_headTo, hc]

theorem try_pop_empty_nonblocking_witness :
    (threadsafe_queue.new Nat).empty = true ∧
      ((threadsafe_queue.new Nat).try_pop = (none, threadsafe_queue.new Nat) ∧
        ((threadsafe_queue.new Nat).try_popTo 3).1 = false ∧
        LockEvent.condWaitSleep ∉ try_pop_headEvents) :=
  ⟨by decide, try_pop_empty_nonblocking (threadsafe_queue.new Nat) 3 (by decide)⟩

/-- C8: Stack copy construction.  Copy-constructing from a source stack
(locking the source for the duration) yields a stack with the same
element sequence, leaves the source unchanged, and gives the copy its
own mutex object distinct from the source's. -/
theorem stack_copy_independent {T : Type} (s : threadsafe_stack T) (freshM : Nat)
    (h : freshM ≠ s.m) :
    (s.copy freshM).1.data = s.data ∧
    (s.copy freshM).2 = s ∧
    (s.copy freshM).1.m = freshM ∧
    (s.copy freshM).1.m ≠ s.m :=
  ⟨rfl, rfl, rfl, h⟩

theorem stack_copy_independent_witness :
    (1 ≠ ((threadsafe_stack.new Nat 0).push 4).m) ∧
      ((((threadsafe_stack.new Nat 0).push 4).copy 1).1.data
          = ((threadsafe_stack.new Nat 0).push 4).data ∧
        (((threadsafe_stack.new Nat 0).push 4).copy 1).2
          = (threadsafe_stack.new Nat 0).push 4 ∧
        (((threadsafe_stack.new Nat 0).push 4).copy 1).1.m = 1 ∧
        (((threadsafe_stack.new Nat 0).push 4).copy 1).1.m
          ≠ ((threadsafe_stack.new Nat 0).push 4).m) :=
  ⟨by decide, stack_copy_independent ((threadsafe_stack.new Nat 0).push 4) 1 (by decide)⟩

/-- C9: Lock-ordering invariant.  Every queue operation's event trace
passes the lock tracker, which fails exactly on acquiring the head mutex
while holding the tail mutex — so the reverse acquisition order never
occurs, for any number of condition-variable wakeups; in the operations
that need both locks the head lock is taken first (it is the first event
of the trace); and `push` touches no head-lock event at all. -/
theorem queue_lock_ordering :
    (∀ k : Nat, runLock (false, false) (wait_pop_headEvents k) = some (false, false)) ∧
    runLock (false, false) try_pop_headEvents = some (false, false) ∧
    runLock (false, false) emptyEvents = some (false, false) ∧
    runLock (false, false) pushEvents = some (false, false) ∧
    try_pop_headEvents = [LockEvent.acquireHead, LockEvent.acquireTail,
      LockEvent.releaseTail, LockEvent.releaseHead] ∧
    emptyEvents = [LockEvent.acquireHead, LockEvent.acquireTail,
      LockEvent.releaseTail, LockEvent.releaseHead] ∧
    (∀ k : Nat, (wait_for_dataEvents k).head? = some LockEvent.acquireHead) ∧
    ∀ e ∈ pushEvents, e ≠ LockEvent.acquireHead ∧ e ≠ LockEvent.releaseHead :=
  ⟨runLock_wait_pop_head, by decide, by decide, by decide, by decide, by decide,
   wait_for_data_first_event, by decide⟩

/-- C10: Frame property of the failing out-parameter pop.  On an empty
queue, `try_pop(value)` returns `false` and leaves both the
caller-supplied storage and the queue state completely unchanged, for
every initial content of that storage. -/
theorem try_popTo_empty_frame {T : Type} (q : threadsafe_queue T) (v : T)
    (h : q.empty = true) :
    q.try_popTo v = (false, v, q) := by
  have hc : q.headEqTail = true := h
  simp [threadsafe_queue.try_popTo, threadsafe_queue.try_pop_headTo, hc]

theorem try_popTo_empty_frame_witness :
    (threadsafe_queue.new Nat).empty = true ∧
      (threadsafe_queue.new Nat).try_popTo 42 = (false, 42, threadsafe_queue.new Nat) :=
  ⟨by decide, try_popTo_empty_frame (threadsafe_queue.new Nat) 42 (by decide)⟩
